import Mathlib

/-!
Verification of the valuation core of the Impermanent-loss-streamlit
repository: piecewise Uniswap-V3 position value, deposit-based liquidity,
Black-Scholes put pricing, and the pointwise composition of the LP curve
with a put-PNL curve.  Python floats are modelled as real numbers; Python
exceptions and the dashboards' early-return error paths are modelled with
`Except` / `Option`.
-/

noncomputable section

namespace ImpermanentLoss

/-- Standard normal cumulative distribution function, the model of
`statistics.NormalDist(0,1).cdf` used by the Black-Scholes code. -/
def stdNormalCdf (x : ℝ) : ℝ :=
  ∫ t in Set.Iic x, Real.exp (-(t ^ 2) / 2) / Real.sqrt (2 * Real.pi)

/-- `uniswap_v3_value_unit` from `src/uniswap-app.py` (also duplicated in
`src/uniswap_app.py` and `src/lp_plus_put_app.py`): piecewise value of one
unit of Uniswap V3 liquidity with geometric-mean price `K` and ratio `r`. -/
def uniswap_v3_value_unit (S K r : ℝ) : ℝ :=
  if S < K / r then S
  else if S > K * r then K
  else (2 * Real.sqrt (S * K * r) - S - K) / (r - 1)

/-- `uniswap_lp_value` from `src/lp_plus_put_app.py`: derives `K`, `r` from
the bounds, and scales the unit value so that the value at `S0` is `V0`;
when the unit value at `S0` is zero it returns `0.0` (no error). -/
def uniswap_lp_value (S S0 t_L t_H V0 : ℝ) : ℝ :=
  if uniswap_v3_value_unit S0 (Real.sqrt (t_L * t_H)) (Real.sqrt (t_H / t_L)) = 0 then 0
  else (V0 / uniswap_v3_value_unit S0 (Real.sqrt (t_L * t_H)) (Real.sqrt (t_H / t_L)))
         * uniswap_v3_value_unit S (Real.sqrt (t_L * t_H)) (Real.sqrt (t_H / t_L))

/-- Errors surfaced by the dashboards through `st.error` followed by an
early `return`, classified by the situation that triggers them. -/
inductive AppError
  | validation
  | degenerateReference

/-- `np.linspace a b n`: `n` evenly spaced samples from `a` to `b`
inclusive (sample `i` is `a + (b - a) * i / (n - 1)`). -/
def linspace (a b : ℝ) (n : ℕ) : List ℝ :=
  (List.range n).map (fun i : ℕ => a + (b - a) * (i : ℝ) / ((n : ℝ) - 1))

/-- The core of `main` from `src/uniswap-app.py`: validates `t_L < t_H`,
derives `K = sqrt(t_L * t_H)` and `r = sqrt(t_H / t_L)`, aborts with an
error when the unit value at `S0` is zero, otherwise scales by
`alpha = V0 / u0` and samples the value curve on 300 points. -/
def uniswap_main (S0 t_L t_H V0 : ℝ) : Except AppError (List (ℝ × ℝ)) :=
  if t_L ≥ t_H then .error .validation
  else if uniswap_v3_value_unit S0 (Real.sqrt (t_L * t_H)) (Real.sqrt (t_H / t_L)) = 0 then
    .error .degenerateReference
  else
    .ok ((linspace (min (0.5 * t_L) (S0 * 0.5)) (max (1.5 * t_H) (S0 * 1.5)) 300).map
      (fun S => (S, (V0 / uniswap_v3_value_unit S0 (Real.sqrt (t_L * t_H)) (Real.sqrt (t_H / t_L)))
        * uniswap_v3_value_unit S (Real.sqrt (t_L * t_H)) (Real.sqrt (t_H / t_L)))))

/-! ### Helper lemmas about the piecewise unit value -/

/-- Below the range the unit value is the price itself. -/
lemma unit_below {S K r : ℝ} (h : S < K / r) : uniswap_v3_value_unit S K r = S := by
  simp [uniswap_v3_value_unit, h]

/-- Above the range the unit value is the constant `K`. -/
lemma unit_above {S K r : ℝ} (hK : 0 < K) (hr : 1 < r) (h : K * r < S) :
    uniswap_v3_value_unit S K r = K := by
  have hr0 : (0 : ℝ) < r := lt_trans one_pos hr
  have h1 : K / r < K := div_lt_self hK hr
  have h2 : K < K * r := (lt_mul_iff_one_lt_right hK).mpr hr
  have hnot : ¬ S < K / r := by linarith
  simp [uniswap_v3_value_unit, hnot, h]

/-- In the range (boundaries included) the unit value is the in-range
expression. -/
lemma unit_in {S K r : ℝ} (h1 : K / r ≤ S) (h2 : S ≤ K * r) :
    uniswap_v3_value_unit S K r = (2 * Real.sqrt (S * K * r) - S - K) / (r - 1) := by
  have hnot1 : ¬ S < K / r := not_lt.mpr h1
  have hnot2 : ¬ S > K * r := not_lt.mpr h2
  simp [uniswap_v3_value_unit, hnot1, hnot2]

/-- Value of the in-range expression at the lower boundary `S = K / r`. -/
lemma in_range_at_lower {K r : ℝ} (hK : 0 < K) (hr : 1 < r) :
    (2 * Real.sqrt (K / r * K * r) - K / r - K) / (r - 1) = K / r := by
  have hr0 : (0 : ℝ) < r := lt_trans one_pos hr
  have hsq : K / r * K * r = K ^ 2 := by
    field_simp
    ring
  rw [hsq, Real.sqrt_sq hK.le]
  have hr1 : r - 1 ≠ 0 := by linarith
  field_simp
  ring

/-- Value of the in-range expression at the upper boundary `S = K * r`. -/
lemma in_range_at_upper {K r : ℝ} (hK : 0 < K) (hr : 1 < r) :
    (2 * Real.sqrt (K * r * K * r) - K * r - K) / (r - 1) = K := by
  have hr0 : (0 : ℝ) < r := lt_trans one_pos hr
  have hsq : K * r * K * r = (K * r) ^ 2 := by ring
  have hKr : 0 ≤ K * r := by positivity
  rw [hsq, Real.sqrt_sq hKr]
  have hr1 : r - 1 ≠ 0 := by linarith
  field_simp
  ring

/-- Monotonicity of the in-range expression on `[K/r, K*r]`. -/
lemma in_range_mono {K r S1 S2 : ℝ} (hK : 0 < K) (hr : 1 < r)
    (hl : K / r ≤ S1) (h12 : S1 ≤ S2) (hu : S2 ≤ K * r) :
    (2 * Real.sqrt (S1 * K * r) - S1 - K) / (r - 1) ≤
      (2 * Real.sqrt (S2 * K * r) - S2 - K) / (r - 1) := by
  have hr0 : (0 : ℝ) < r := lt_trans one_pos hr
  have hKr0 : (0 : ℝ) ≤ K * r := by positivity
  have hS1 : 0 ≤ S1 := le_trans (by positivity) hl
  have hS2 : 0 ≤ S2 := le_trans hS1 h12
  have e1 : S1 * K * r = S1 * (K * r) := by ring
  have e2 : S2 * K * r = S2 * (K * r) := by ring
  rw [e1, e2, Real.sqrt_mul hS1, Real.sqrt_mul hS2]
  set a := Real.sqrt S1 with ha
  set b := Real.sqrt S2 with hb
  set c := Real.sqrt (K * r) with hc
  have hab : a ≤ b := Real.sqrt_le_sqrt h12
  have hbc : b ≤ c := Real.sqrt_le_sqrt hu
  have ha2 : a ^ 2 = S1 := Real.sq_sqrt hS1
  have hb2 : b ^ 2 = S2 := Real.sq_sqrt hS2
  apply div_le_div_of_nonneg_right ?_ (by linarith)
  have key : (b - a) * (2 * c - a - b) ≥ 0 := by
    apply mul_nonneg (by linarith) (by linarith)
  nlinarith [key]

/-- The unit value at the lower boundary price is `K / r`. -/
lemma unit_at_lower {K r : ℝ} (hK : 0 < K) (hr : 1 < r) :
    uniswap_v3_value_unit (K / r) K r = K / r := by
  have hr0 : (0 : ℝ) < r := lt_trans one_pos hr
  have h1 : K / r < K := div_lt_self hK hr
  have h2 : K < K * r := (lt_mul_iff_one_lt_right hK).mpr hr
  rw [unit_in le_rfl (by linarith)]
  exact in_range_at_lower hK hr

/-- The unit value at the upper boundary price is `K`. -/
lemma unit_at_upper {K r : ℝ} (hK : 0 < K) (hr : 1 < r) :
    uniswap_v3_value_unit (K * r) K r = K := by
  have hr0 : (0 : ℝ) < r := lt_trans one_pos hr
  have h1 : K / r < K := div_lt_self hK hr
  have h2 : K < K * r := (lt_mul_iff_one_lt_right hK).mpr hr
  rw [unit_in (by linarith) le_rfl]
  exact in_range_at_upper hK hr

/-- Claim C5: for `K > 0`, `r > 1`, the in-range branch of the unit value is
continuous with the outer branches at both boundary prices: the value at
`S = K/r` is `K/r` (matching the below-range branch) and the value at
`S = K*r` is `K` (matching the above-range branch); the boundaries fall into
the in-range branch because the outer branches use strict inequalities. -/
theorem unit_value_boundary_continuity (K r : ℝ) (hK : 0 < K) (hr : 1 < r) :
    uniswap_v3_value_unit (K / r) K r = K / r ∧
      uniswap_v3_value_unit (K * r) K r = K := by
  exact ⟨unit_at_lower hK hr, unit_at_upper hK hr⟩

/-- Witness for C5 at `K = 2`, `r = 2`. -/
theorem unit_value_boundary_continuity_witness :
    (0 : ℝ) < 2 ∧ (1 : ℝ) < 2 ∧
      (uniswap_v3_value_unit (2 / 2) 2 2 = 2 / 2 ∧
        uniswap_v3_value_unit (2 * 2) 2 2 = 2) :=
  ⟨by norm_num, by norm_num, unit_value_boundary_continuity 2 2 (by norm_num) (by norm_num)⟩

/-- The unit value is bounded below by `K / r` on the in-range branch. -/
lemma in_range_lower_bound {S K r : ℝ} (hK : 0 < K) (hr : 1 < r)
    (h1 : K / r ≤ S) (h2 : S ≤ K * r) :
    K / r ≤ (2 * Real.sqrt (S * K * r) - S - K) / (r - 1) := by
  have := in_range_mono hK hr (le_refl (K / r)) h1 h2
  rwa [in_range_at_lower hK hr] at this

/-- The unit value is bounded above by `K` on the in-range branch. -/
lemma in_range_upper_bound {S K r : ℝ} (hK : 0 < K) (hr : 1 < r)
    (h1 : K / r ≤ S) (h2 : S ≤ K * r) :
    (2 * Real.sqrt (S * K * r) - S - K) / (r - 1) ≤ K := by
  have := in_range_mono hK hr h1 h2 (le_refl (K * r))
  rwa [in_range_at_upper hK hr] at this

/-- The unit value is non-decreasing in the price. -/
lemma unit_mono {K r : ℝ} (hK : 0 < K) (hr : 1 < r) {S1 S2 : ℝ}
    (hS1 : 0 < S1) (h12 : S1 ≤ S2) :
    uniswap_v3_value_unit S1 K r ≤ uniswap_v3_value_unit S2 K r := by
  have hr0 : (0 : ℝ) < r := lt_trans one_pos hr
  have hlu : K / r < K * r := by
    calc K / r < K := div_lt_self hK hr
    _ < K * r := (lt_mul_iff_one_lt_right hK).mpr hr
  rcases lt_or_ge S1 (K / r) with hb1 | hb1
  · rw [unit_below hb1]
    rcases lt_or_ge S2 (K / r) with hb2 | hb2
    · rw [unit_below hb2]; exact h12
    · rcases le_or_lt S2 (K * r) with hc2 | hc2
      · rw [unit_in hb2 hc2]
        have := in_range_lower_bound hK hr hb2 hc2
        linarith
      · rw [unit_above hK hr hc2]
        linarith [div_lt_self hK hr]
  · rcases le_or_lt S1 (K * r) with hc1 | hc1
    · rw [unit_in hb1 hc1]
      rcases le_or_lt S2 (K * r) with hc2 | hc2
      · rw [unit_in (le_trans hb1 h12) hc2]
        exact in_range_mono hK hr hb1 h12 hc2
      · rw [unit_above hK hr hc2]
        exact in_range_upper_bound hK hr hb1 hc1
    · rw [unit_above hK hr hc1, unit_above hK hr (lt_of_lt_of_le hc1 h12)]

/-- The unit value is strictly positive and at most `K` at positive prices. -/
lemma unit_bounds {K r : ℝ} (hK : 0 < K) (hr : 1 < r) {S : ℝ} (hS : 0 < S) :
    0 < uniswap_v3_value_unit S K r ∧ uniswap_v3_value_unit S K r ≤ K := by
  have hr0 : (0 : ℝ) < r := lt_trans one_pos hr
  have hKr : 0 < K / r := by positivity
  rcases lt_or_ge S (K / r) with hb | hb
  · rw [unit_below hb]
    exact ⟨hS, le_trans hb.le (div_le_self hK.le hr.le)⟩
  · rcases le_or_lt S (K * r) with hc | hc
    · rw [unit_in hb hc]
      constructor
      · exact lt_of_lt_of_le hKr (in_range_lower_bound hK hr hb hc)
      · exact in_range_upper_bound hK hr hb hc
    · rw [unit_above hK hr hc]
      exact ⟨hK, le_rfl⟩

/-- Claim C9: for `K > 0` and `r > 1`, the unit-value function is
non-decreasing on positive prices and satisfies
`0 < unitValue(S, K, r) ≤ K`; consequently a scaled position's value
`alpha * unitValue(S, K, r)` never exceeds `alpha * K` for `alpha ≥ 0`. -/
theorem unit_value_mono_and_bounded (K r : ℝ) (hK : 0 < K) (hr : 1 < r) :
    (∀ S1 S2 : ℝ, 0 < S1 → S1 ≤ S2 →
        uniswap_v3_value_unit S1 K r ≤ uniswap_v3_value_unit S2 K r) ∧
      (∀ S : ℝ, 0 < S →
        0 < uniswap_v3_value_unit S K r ∧ uniswap_v3_value_unit S K r ≤ K) ∧
      (∀ alpha S : ℝ, 0 ≤ alpha → 0 < S →
        alpha * uniswap_v3_value_unit S K r ≤ alpha * K) := by
  refine ⟨fun S1 S2 hS1 h12 => unit_mono hK hr hS1 h12,
    fun S hS => unit_bounds hK hr hS, fun alpha S halpha hS => ?_⟩
  exact mul_le_mul_of_nonneg_left (unit_bounds hK hr hS).2 halpha

/-- Witness for C9 at `K = 2`, `r = 2`. -/
theorem unit_value_mono_and_bounded_witness :
    (0 : ℝ) < 2 ∧ (1 : ℝ) < 2 ∧
      ((∀ S1 S2 : ℝ, 0 < S1 → S1 ≤ S2 →
          uniswap_v3_value_unit S1 2 2 ≤ uniswap_v3_value_unit S2 2 2) ∧
        (∀ S : ℝ, 0 < S →
          0 < uniswap_v3_value_unit S 2 2 ∧ uniswap_v3_value_unit S 2 2 ≤ 2) ∧
        (∀ alpha S : ℝ, 0 ≤ alpha → 0 < S →
          alpha * uniswap_v3_value_unit S 2 2 ≤ alpha * 2)) :=
  ⟨by norm_num, by norm_num,
    unit_value_mono_and_bounded 2 2 (by norm_num) (by norm_num)⟩

/-- `Real.sqrt 4 = 2`, used to evaluate witnesses on concrete inputs. -/
lemma sqrt_four : Real.sqrt 4 = 2 := by
  rw [show (4 : ℝ) = 2 ^ 2 by norm_num, Real.sqrt_sq (by norm_num : (0 : ℝ) ≤ 2)]

/-- Claim C4: for every valid position (`0 < lower < upper`, `S0 > 0`,
`V0 > 0`) whose unit value at `S0` is nonzero, the scaled value curve
evaluated at the reference price returns exactly the reference value,
because `alpha` is `V0` divided by the unit value at `S0`. -/
theorem scaled_value_at_reference (S0 t_L t_H V0 : ℝ)
    (hL : 0 < t_L) (hLH : t_L < t_H) (hS0 : 0 < S0) (hV0 : 0 < V0)
    (hu0 : uniswap_v3_value_unit S0 (Real.sqrt (t_L * t_H)) (Real.sqrt (t_H / t_L)) ≠ 0) :
    uniswap_lp_value S0 S0 t_L t_H V0 = V0 := by
  rw [uniswap_lp_value, if_neg hu0, div_mul_cancel₀ V0 hu0]

/-- Witness for C4 at `S0 = 1/2`, range `(1, 4)`, `V0 = 10000`:
`K = sqrt 4 = 2`, `r = sqrt 4 = 2`, and the unit value at `1/2` is `1/2`. -/
theorem scaled_value_at_reference_witness :
    (0 : ℝ) < 1 ∧ (1 : ℝ) < 4 ∧ (0 : ℝ) < 1 / 2 ∧ (0 : ℝ) < 10000 ∧
      uniswap_v3_value_unit (1 / 2) (Real.sqrt (1 * 4)) (Real.sqrt (4 / 1)) ≠ 0 ∧
      uniswap_lp_value (1 / 2) (1 / 2) 1 4 10000 = 10000 := by
  have hu : uniswap_v3_value_unit (1 / 2) (Real.sqrt (1 * 4)) (Real.sqrt (4 / 1)) ≠ 0 := by
    rw [show ((1 : ℝ) * 4) = 4 by norm_num, show ((4 : ℝ) / 1) = 4 by norm_num, sqrt_four,
      unit_below (by norm_num : (1 : ℝ) / 2 < 2 / 2)]
    norm_num
  exact ⟨by norm_num, by norm_num, by norm_num, by norm_num, hu,
    scaled_value_at_reference (1 / 2) 1 4 10000 (by norm_num) (by norm_num) (by norm_num)
      (by norm_num) hu⟩

/-! ### Put option payoff at expiry (`src/put-option.py`) -/

/-- Position side from the "Buy"/"Sell" select box. -/
inductive Side
  | buy
  | sell

/-- Intrinsic payoff of a put, `max(K - S, 0.0)`, as computed inside the
loop of `main` in `src/put-option.py`. -/
def intrinsic_put (S K : ℝ) : ℝ := max (K - S) 0

/-- The per-price expiry payoff computed by `main` in `src/put-option.py`:
`(intrinsic - premium) * quantity` for Buy,
`(premium - intrinsic) * quantity` for Sell. -/
def payoff_at_expiry (S strike premium quantity : ℝ) (side : Side) : ℝ :=
  match side with
  | .buy => (intrinsic_put S strike - premium) * quantity
  | .sell => (premium - intrinsic_put S strike) * quantity

/-- Claim C8: for every contract with `strike > 0`, `premium ≥ 0`,
`quantity ≥ 1`, the expiry payoff is monotone in the underlying price:
non-increasing in `S` for Buy and non-decreasing in `S` for Sell. -/
theorem payoff_at_expiry_monotone (strike premium quantity S1 S2 : ℝ)
    (hstrike : 0 < strike) (hprem : 0 ≤ premium) (hqty : 1 ≤ quantity)
    (h12 : S1 ≤ S2) :
    payoff_at_expiry S2 strike premium quantity .buy ≤
        payoff_at_expiry S1 strike premium quantity .buy ∧
      payoff_at_expiry S1 strike premium quantity .sell ≤
        payoff_at_expiry S2 strike premium quantity .sell := by
  have hq0 : (0 : ℝ) ≤ quantity := by linarith
  have hintr : intrinsic_put S2 strike ≤ intrinsic_put S1 strike :=
    max_le_max (by linarith) le_rfl
  constructor
  · exact mul_le_mul_of_nonneg_right (by linarith) hq0
  · exact mul_le_mul_of_nonneg_right (by linarith) hq0

/-- Witness for C8 at `strike = 100`, `premium = 5`, `quantity = 1`,
`S1 = 90`, `S2 = 110`. -/
theorem payoff_at_expiry_monotone_witness :
    (0 : ℝ) < 100 ∧ (0 : ℝ) ≤ 5 ∧ (1 : ℝ) ≤ 1 ∧ (90 : ℝ) ≤ 110 ∧
      (payoff_at_expiry 110 100 5 1 .buy ≤ payoff_at_expiry 90 100 5 1 .buy ∧
        payoff_at_expiry 90 100 5 1 .sell ≤ payoff_at_expiry 110 100 5 1 .sell) :=
  ⟨by norm_num, by norm_num, by norm_num, by norm_num,
    payoff_at_expiry_monotone 100 5 1 90 110 (by norm_num) (by norm_num) (by norm_num)
      (by norm_num)⟩

/-! ### Black-Scholes put pricing (`src/put_option_app.py`, duplicated in
`src/lp_plus_put_app.py`) -/

/-- `bs_put_price` from `src/put_option_app.py` (the identical function also
appears in `src/lp_plus_put_app.py`): Black-Scholes price of a European put
with risk-free rate 0, collapsing to the intrinsic value when
`T ≤ 1e-10`. -/
def bs_put_price (S K T sigma : ℝ) : ℝ :=
  if T ≤ 1e-10 then max (K - S) 0
  else
    let d1 := (Real.log (S / K) + 0.5 * sigma ^ 2 * T) / (sigma * Real.sqrt T)
    let d2 := d1 - sigma * Real.sqrt T
    K * stdNormalCdf (-d2) - S * stdNormalCdf (-d1)

/-- `bs_put_delta` from `src/put_option_app.py`: Black-Scholes delta of a
European put with risk-free rate 0; at `T ≤ 1e-10` it is `-1` below the
strike and `0` otherwise. -/
def bs_put_delta (S K T sigma : ℝ) : ℝ :=
  if T ≤ 1e-10 then (if S < K then -1 else 0)
  else
    let d1 := (Real.log (S / K) + 0.5 * sigma ^ 2 * T) / (sigma * Real.sqrt T)
    stdNormalCdf d1 - 1

/-- The spec's `intrinsic(S, K)`: `max(K - S, 0)`. -/
def spec_intrinsic (S K : ℝ) : ℝ := max (K - S) 0

/-- The spec's `blackScholesPutPrice(S, K, T, sigma)`, written from the
spec's words: if `T ≤ 1e-10` return `intrinsic(S, K)`; else
`d1 = (ln(S/K) + 0.5 sigma^2 T) / (sigma sqrt T)`, `d2 = d1 - sigma sqrt T`,
price `= K Phi(-d2) - S Phi(-d1)` with `Phi` the standard normal CDF and the
risk-free rate fixed at 0. -/
def spec_blackScholesPutPrice (S K T sigma : ℝ) : ℝ :=
  if T ≤ 1e-10 then spec_intrinsic S K
  else
    K * stdNormalCdf (-((Real.log (S / K) + 0.5 * sigma ^ 2 * T) / (sigma * Real.sqrt T)
          - sigma * Real.sqrt T))
      - S * stdNormalCdf (-((Real.log (S / K) + 0.5 * sigma ^ 2 * T) / (sigma * Real.sqrt T)))

/-- Claim C7: for every `S > 0`, `K > 0` and `sigma`, the code's
`bs_put_price` agrees with the spec's `blackScholesPutPrice`: intrinsic
value `max(K - S, 0)` when `T ≤ 1e-10`, otherwise
`K Phi(-d2) - S Phi(-d1)` with the stated `d1`, `d2`, `Phi` the standard
normal CDF, and the risk-free rate fixed at 0. -/
theorem bs_put_price_matches_spec (S K T sigma : ℝ) (hS : 0 < S) (hK : 0 < K) :
    bs_put_price S K T sigma = spec_blackScholesPutPrice S K T sigma := by
  rw [bs_put_price, spec_blackScholesPutPrice, spec_intrinsic]

/-- Witness for C7 at `S = 1`, `K = 2`, `T = 3`, `sigma = 4`. -/
theorem bs_put_price_matches_spec_witness :
    (0 : ℝ) < 1 ∧ (0 : ℝ) < 2 ∧
      bs_put_price 1 2 3 4 = spec_blackScholesPutPrice 1 2 3 4 :=
  ⟨by norm_num, by norm_num, bs_put_price_matches_spec 1 2 3 4 (by norm_num) (by norm_num)⟩

/-- Domain-checked model of `bs_put_price`: `none` marks the inputs where
the Python code raises (`S / K` with `K == 0`, `log` of a non-positive
argument, or a zero divisor `sigma * sqrt T` in `d1`); on all other inputs
it returns the price. -/
def bs_put_price_checked (S K T sigma : ℝ) : Option ℝ :=
  if T ≤ 1e-10 then some (max (K - S) 0)
  else if K = 0 then none
  else if S / K ≤ 0 then none
  else if sigma * Real.sqrt T = 0 then none
  else some (bs_put_price S K T sigma)

/-- Domain-checked model of `bs_put_delta`, with the same error cases as
`bs_put_price_checked`. -/
def bs_put_delta_checked (S K T sigma : ℝ) : Option ℝ :=
  if T ≤ 1e-10 then some (if S < K then -1 else 0)
  else if K = 0 then none
  else if S / K ≤ 0 then none
  else if sigma * Real.sqrt T = 0 then none
  else some (bs_put_delta S K T sigma)

/-- Claim C10: for every `S > 0`, `K > 0`, `sigma > 0`, both `bs_put_price`
and `bs_put_delta` evaluate totally for every `T ≥ 0` (the log argument
`S / K` is positive and the `T ≤ 1e-10` guard removes the only zero divisor
`sigma * sqrt T`); and the precondition `sigma > 0` is necessary: at
`S = K = 1`, `sigma = 0`, `T = 1 > 1e-10` the divisor is zero and the error
branch is reached. -/
theorem bs_put_total_and_sigma_necessary (S K T sigma : ℝ)
    (hS : 0 < S) (hK : 0 < K) (hsigma : 0 < sigma) (hT : 0 ≤ T) :
    ((bs_put_price_checked S K T sigma).isSome ∧
        (bs_put_delta_checked S K T sigma).isSome) ∧
      (bs_put_price_checked 1 1 1 0 = none ∧ bs_put_delta_checked 1 1 1 0 = none) := by
  have hxeps : ¬ ((1 : ℝ) ≤ 1e-10) := by norm_num
  have hdiv1 : ¬ ((1 : ℝ) / 1 ≤ 0) := by norm_num
  have hz : (0 : ℝ) * Real.sqrt 1 = 0 := by simp
  refine ⟨?_, ?_, ?_⟩
  · rcases le_or_lt T 1e-10 with hTe | hTe
    · constructor
      · rw [bs_put_price_checked, if_pos hTe]; rfl
      · rw [bs_put_delta_checked, if_pos hTe]; rfl
    · have hT0 : (0 : ℝ) < T := lt_trans (by norm_num) hTe
      have hKne : K ≠ 0 := ne_of_gt hK
      have hSK : ¬ (S / K ≤ 0) := not_le.mpr (div_pos hS hK)
      have hden : sigma * Real.sqrt T ≠ 0 :=
        ne_of_gt (mul_pos hsigma (Real.sqrt_pos.mpr hT0))
      constructor
      · rw [bs_put_price_checked, if_neg (not_le.mpr hTe), if_neg hKne, if_neg hSK,
          if_neg hden]
        rfl
      · rw [bs_put_delta_checked, if_neg (not_le.mpr hTe), if_neg hKne, if_neg hSK,
          if_neg hden]
        rfl
  · rw [bs_put_price_checked, if_neg hxeps, if_neg (by norm_num : (1 : ℝ) ≠ 0),
      if_neg hdiv1, if_pos hz]
  · rw [bs_put_delta_checked, if_neg hxeps, if_neg (by norm_num : (1 : ℝ) ≠ 0),
      if_neg hdiv1, if_pos hz]

/-- Witness for C10 at `S = 1`, `K = 1`, `T = 0`, `sigma = 1`. -/
theorem bs_put_total_and_sigma_necessary_witness :
    (0 : ℝ) < 1 ∧ (0 : ℝ) ≤ 0 ∧
      (((bs_put_price_checked 1 1 0 1).isSome ∧
          (bs_put_delta_checked 1 1 0 1).isSome) ∧
        (bs_put_price_checked 1 1 1 0 = none ∧ bs_put_delta_checked 1 1 1 0 = none)) :=
  ⟨by norm_num, by norm_num,
    bs_put_total_and_sigma_necessary 1 1 0 1 (by norm_num) (by norm_num) (by norm_num)
      (by norm_num)⟩

/-! ### Combined LP + put curve (`src/lp_plus_put_app.py`) -/

/-- `bs_put_pnl` from `src/lp_plus_put_app.py`: PNL of the put using its
Black-Scholes value, `(val - premium) * quantity` for Buy and
`(premium - val) * quantity` for Sell. -/
def bs_put_pnl (S K T sigma premium quantity : ℝ) (side : Side) : ℝ :=
  match side with
  | .buy => (bs_put_price S K T sigma - premium) * quantity
  | .sell => (premium - bs_put_price S K T sigma) * quantity

/-- The sampling loop of `main` in `src/lp_plus_put_app.py`: 300 evenly
spaced prices, and for each price the LP value, the put PNL, and their sum,
collected into three aligned lists. -/
def combined_curves (S0 t_L t_H V0 strike premium quantity : ℝ) (side : Side)
    (T_years sigma price_min price_max : ℝ) : List ℝ × List ℝ × List ℝ :=
  ((linspace price_min price_max 300).map (fun S => uniswap_lp_value S S0 t_L t_H V0),
   (linspace price_min price_max 300).map
     (fun S => bs_put_pnl S strike T_years sigma premium quantity side),
   (linspace price_min price_max 300).map
     (fun S => uniswap_lp_value S S0 t_L t_H V0 +
       bs_put_pnl S strike T_years sigma premium quantity side))

/-- The validation-and-curve core of `main` in `src/lp_plus_put_app.py`:
converts months to years and the 180-day implied volatility to an annual
one, takes the union of the two price domains, rejects an empty union, and
otherwise builds the three curves.  The bounds `t_L`, `t_H` are never
validated on this path. -/
def combined_main (S0 t_L t_H V0 strike premium quantity : ℝ) (side : Side)
    (T_months iv180 uni_min uni_max put_min put_max : ℝ) :
    Except AppError (List ℝ × List ℝ × List ℝ) :=
  if (180 / 365 : ℝ) < 1e-10 then .error .validation
  else if min uni_min put_min ≥ max uni_max put_max then .error .validation
  else
    .ok (combined_curves S0 t_L t_H V0 strike premium quantity side (T_months / 12)
      (iv180 / Real.sqrt (180 / 365)) (min uni_min put_min) (max uni_max put_max))

/-- The length of `linspace a b n` is `n`. -/
lemma linspace_length (a b : ℝ) (n : ℕ) : (linspace a b n).length = n := by
  simp [linspace]

/-- The `i`-th sample of `linspace a b n`. -/
lemma linspace_getD (a b : ℝ) {n i : ℕ} (h : i < n) :
    (linspace a b n).getD i 0 = a + (b - a) * i / ((n : ℝ) - 1) := by
  rw [linspace, List.getD_eq_getElem?_getD, List.getElem?_map, List.getElem?_range h]
  rfl

/-- Samples of `linspace` are strictly increasing when `a < b`. -/
lemma linspace_strict_mono (a b : ℝ) (hab : a < b) {n i j : ℕ}
    (hij : i < j) (hj : j < n) :
    (linspace a b n).getD i 0 < (linspace a b n).getD j 0 := by
  have hi : i < n := lt_trans hij hj
  rw [linspace_getD a b hi, linspace_getD a b hj]
  have hn2 : 2 ≤ n := by omega
  have hn : (0 : ℝ) < (n : ℝ) - 1 := by
    have : (2 : ℝ) ≤ (n : ℝ) := by exact_mod_cast hn2
    linarith
  have hij' : (i : ℝ) < (j : ℝ) := by exact_mod_cast hij
  have hba : (0 : ℝ) < b - a := by linarith
  have hmul : (b - a) * i < (b - a) * j := mul_lt_mul_of_pos_left hij' hba
  have hdiv : (b - a) * i / ((n : ℝ) - 1) < (b - a) * j / ((n : ℝ) - 1) :=
    div_lt_div_of_pos_right hmul hn
  linarith

/-- `getD` through a `map`, at an in-bounds index. -/
lemma getD_map (f : ℝ → ℝ) (l : List ℝ) {i : ℕ} (h : i < l.length) :
    (l.map f).getD i 0 = f (l.getD i 0) := by
  rw [List.getD_eq_getElem?_getD, List.getD_eq_getElem?_getD, List.getElem?_map,
    List.getElem?_eq_getElem h]
  rfl

/-- Claim C6: for every position, contract, mode and sample grid, the
combined-curve loop returns three sequences of equal length (the 300-point
grid), each aligned to the same strictly ascending price grid, with
`combined[i] = position[i] + option[i]` at every index: the composition is
exact pointwise summation with no interaction terms. -/
theorem combined_curve_pointwise_sum
    (S0 t_L t_H V0 strike premium quantity T sigma pmin pmax : ℝ) (side : Side)
    (hrange : pmin < pmax) :
    ((combined_curves S0 t_L t_H V0 strike premium quantity side T sigma pmin pmax).1.length
          = 300 ∧
        (combined_curves S0 t_L t_H V0 strike premium quantity side T sigma pmin pmax).2.1.length
          = 300 ∧
        (combined_curves S0 t_L t_H V0 strike premium quantity side T sigma pmin pmax).2.2.length
          = 300) ∧
      (∀ i : ℕ, i < 300 →
        (combined_curves S0 t_L t_H V0 strike premium quantity side T sigma pmin pmax).1.getD i 0
            = uniswap_lp_value ((linspace pmin pmax 300).getD i 0) S0 t_L t_H V0 ∧
          (combined_curves S0 t_L t_H V0 strike premium quantity side T sigma
                pmin pmax).2.1.getD i 0
            = bs_put_pnl ((linspace pmin pmax 300).getD i 0) strike T sigma premium
                quantity side ∧
          (combined_curves S0 t_L t_H V0 strike premium quantity side T sigma
                pmin pmax).2.2.getD i 0
            = (combined_curves S0 t_L t_H V0 strike premium quantity side T sigma
                  pmin pmax).1.getD i 0 +
                (combined_curves S0 t_L t_H V0 strike premium quantity side T sigma
                    pmin pmax).2.1.getD i 0) ∧
      (∀ i j : ℕ, i < j → j < 300 →
        (linspace pmin pmax 300).getD i 0 < (linspace pmin pmax 300).getD j 0) := by
  have hlen : (linspace pmin pmax 300).length = 300 := linspace_length _ _ _
  refine ⟨⟨?_, ?_, ?_⟩, ?_, ?_⟩
  · simp [combined_curves, linspace_length]
  · simp [combined_curves, linspace_length]
  · simp [combined_curves, linspace_length]
  · intro i hi
    have hi' : i < (linspace pmin pmax 300).length := by rw [hlen]; exact hi
    refine ⟨?_, ?_, ?_⟩
    · exact getD_map _ _ hi'
    · exact getD_map _ _ hi'
    · show ((linspace pmin pmax 300).map
          (fun S => uniswap_lp_value S S0 t_L t_H V0 +
            bs_put_pnl S strike T sigma premium quantity side)).getD i 0 = _
      rw [getD_map _ _ hi']
      show _ = ((linspace pmin pmax 300).map
            (fun S => uniswap_lp_value S S0 t_L t_H V0)).getD i 0 +
          ((linspace pmin pmax 300).map
            (fun S => bs_put_pnl S strike T sigma premium quantity side)).getD i 0
      rw [getD_map _ _ hi', getD_map _ _ hi']
  · intro i j hij hj
    exact linspace_strict_mono pmin pmax hrange hij hj

/-- Witness for C6 with all scalar parameters `1`, side Buy, and the grid
`[0, 1]`. -/
theorem combined_curve_pointwise_sum_witness :
    (0 : ℝ) < 1 ∧
      (((combined_curves 1 1 1 1 1 1 1 .buy 1 1 0 1).1.length = 300 ∧
          (combined_curves 1 1 1 1 1 1 1 .buy 1 1 0 1).2.1.length = 300 ∧
          (combined_curves 1 1 1 1 1 1 1 .buy 1 1 0 1).2.2.length = 300) ∧
        (∀ i : ℕ, i < 300 →
          (combined_curves 1 1 1 1 1 1 1 .buy 1 1 0 1).1.getD i 0
              = uniswap_lp_value ((linspace 0 1 300).getD i 0) 1 1 1 1 ∧
            (combined_curves 1 1 1 1 1 1 1 .buy 1 1 0 1).2.1.getD i 0
              = bs_put_pnl ((linspace 0 1 300).getD i 0) 1 1 1 1 1 .buy ∧
            (combined_curves 1 1 1 1 1 1 1 .buy 1 1 0 1).2.2.getD i 0
              = (combined_curves 1 1 1 1 1 1 1 .buy 1 1 0 1).1.getD i 0 +
                  (combined_curves 1 1 1 1 1 1 1 .buy 1 1 0 1).2.1.getD i 0) ∧
        (∀ i j : ℕ, i < j → j < 300 →
          (linspace 0 1 300).getD i 0 < (linspace 0 1 300).getD j 0)) :=
  ⟨by norm_num, combined_curve_pointwise_sum 1 1 1 1 1 1 1 1 1 0 1 .buy (by norm_num)⟩

/-! ### Error behaviour of the two scaled-value entry points (C1, C3) -/

/-- The unit value at price `0` is `0` for the range `(80, 120)` (the
below-range branch returns the price itself). -/
lemma unit_zero_at_zero_price :
    uniswap_v3_value_unit 0 (Real.sqrt (80 * 120)) (Real.sqrt (120 / 80)) = 0 := by
  have hK : 0 < Real.sqrt (80 * 120) := Real.sqrt_pos.mpr (by norm_num)
  have hr : 0 < Real.sqrt (120 / 80) := Real.sqrt_pos.mpr (by norm_num)
  exact unit_below (div_pos hK hr)

/-- Counterexample to C1: with `S0 = 0` and range `(80, 120)` the unit
value at the reference price is exactly zero, yet `uniswap_lp_value` from
`src/lp_plus_put_app.py` does not fail: it silently returns the default
`0.0` at every queried price (shown here at `S = 100` and `S = 50`). -/
theorem degenerate_reference_silently_zeroed :
    uniswap_v3_value_unit 0 (Real.sqrt (80 * 120)) (Real.sqrt (120 / 80)) = 0 ∧
      uniswap_lp_value 100 0 80 120 10000 = 0 ∧
      uniswap_lp_value 50 0 80 120 10000 = 0 := by
  refine ⟨unit_zero_at_zero_price, ?_, ?_⟩ <;>
    rw [uniswap_lp_value, if_pos unit_zero_at_zero_price]

/-- Claim C1 as amended: when the unit value at the reference price is
zero, `main` in `src/uniswap-app.py` reports the degenerate reference
synchronously and produces no curve, while `uniswap_lp_value` in
`src/lp_plus_put_app.py` silently downgrades the failure to the default
result `0.0` for every price `S`. -/
theorem degenerate_reference_behaviour (S0 t_L t_H V0 : ℝ) (hLH : t_L < t_H)
    (hu0 : uniswap_v3_value_unit S0 (Real.sqrt (t_L * t_H)) (Real.sqrt (t_H / t_L)) = 0) :
    uniswap_main S0 t_L t_H V0 = .error .degenerateReference ∧
      ∀ S : ℝ, uniswap_lp_value S S0 t_L t_H V0 = 0 := by
  constructor
  · rw [uniswap_main, if_neg (not_le.mpr hLH), if_pos hu0]
  · intro S
    rw [uniswap_lp_value, if_pos hu0]

/-- Witness for the amended C1 at `S0 = 0`, range `(80, 120)`,
`V0 = 10000`. -/
theorem degenerate_reference_behaviour_witness :
    (80 : ℝ) < 120 ∧
      uniswap_v3_value_unit 0 (Real.sqrt (80 * 120)) (Real.sqrt (120 / 80)) = 0 ∧
      (uniswap_main 0 80 120 10000 = .error .degenerateReference ∧
        ∀ S : ℝ, uniswap_lp_value S 0 80 120 10000 = 0) :=
  ⟨by norm_num, unit_zero_at_zero_price,
    degenerate_reference_behaviour 0 80 120 10000 (by norm_num) unit_zero_at_zero_price⟩

/-- Counterexample to C3: the combined-curve path of
`src/lp_plus_put_app.py` never validates the range bounds.  With the
degenerate range `lower = upper = 100` (and `S0 = 50`, `T_months = 0`,
domains `[10, 90]`) it raises no `ValidationError`: it returns a full
300-point triple of curves. -/
theorem combined_path_accepts_degenerate_range :
    combined_main 50 100 100 10000 100 5 1 .buy 0 (3 / 10) 10 90 10 90 =
        .ok (combined_curves 50 100 100 10000 100 5 1 .buy (0 / 12)
          ((3 / 10) / Real.sqrt (180 / 365)) 10 90) ∧
      (combined_curves 50 100 100 10000 100 5 1 .buy (0 / 12)
          ((3 / 10) / Real.sqrt (180 / 365)) 10 90).1.length = 300 := by
  constructor
  · rw [combined_main, if_neg (by norm_num), if_neg (by simp only [min_self, max_self]; norm_num)]
    simp
  · simp [combined_curves, linspace_length]

/-- Claim C3 as amended: `main` in `src/uniswap-app.py` rejects every
range with `lower ≥ upper` (including `lower = upper`) with a
`ValidationError` before any valuation arithmetic, producing no curve; the
combined-curve path of `src/lp_plus_put_app.py`, however, performs no such
validation. -/
theorem range_validation_on_uniswap_main (S0 t_L t_H V0 : ℝ) (h : t_L ≥ t_H) :
    uniswap_main S0 t_L t_H V0 = .error .validation := by
  rw [uniswap_main, if_pos h]

/-- Witness for the amended C3 at the degenerate range
`lower = upper = 100`. -/
theorem range_validation_on_uniswap_main_witness :
    (100 : ℝ) ≥ 100 ∧ uniswap_main 50 100 100 10000 = .error .validation :=
  ⟨by norm_num, range_validation_on_uniswap_main 50 100 100 10000 (by norm_num)⟩

/-! ### Deposit-based liquidity (`src/impermanent_loss_app.py`) -/

/-- `compute_liquidity` from `src/impermanent_loss_app.py`: solves the
in-range amount formulas for `L` from the two deposits at `P0` and returns
`min(Lx, Ly)`.  A denominator whose absolute value is below `1e-15` makes
that side's bound `float('inf')`, modelled by `⊤ : EReal`.  `P0` outside
`(P_lower, P_upper)` only triggers a warning. -/
def compute_liquidity (x_init y_init P0 P_lower P_upper : ℝ) : EReal :=
  min
    (if |Real.sqrt P_upper - Real.sqrt P0| < 1e-15 then (⊤ : EReal)
      else ((x_init * (Real.sqrt P0 * Real.sqrt P_upper)
        / (Real.sqrt P_upper - Real.sqrt P0) : ℝ) : EReal))
    (if |Real.sqrt P0 - Real.sqrt P_lower| < 1e-15 then (⊤ : EReal)
      else ((y_init / (Real.sqrt P0 - Real.sqrt P_lower) : ℝ) : EReal))

/-- `Real.sqrt 9 = 3`, used to evaluate witnesses on concrete inputs. -/
lemma sqrt_nine : Real.sqrt 9 = 3 := by
  rw [show (9 : ℝ) = 3 ^ 2 by norm_num, Real.sqrt_sq (by norm_num : (0 : ℝ) ≤ 3)]

/-- Counterexample to C2.  First input (`x = y = 1`, `P0 = upper = 4`,
`lower = 1`): the `x`-side denominator is exactly zero, so the claim
predicts a bound of `0` and result `min(0, 1) = 0`, but the code makes the
bound infinite and returns `1`.  Second input (`x = y = 1`, `P0 = 1`,
range `(4, 9)`): `P0` lies outside `(lower, upper)` and the result is
`-1`, which is negative, contradicting the claimed non-negativity. -/
theorem compute_liquidity_inf_and_negative :
    compute_liquidity 1 1 4 1 4 = 1 ∧ compute_liquidity 1 1 1 4 9 < 0 := by
  have h115 : (0 : ℝ) < 1e-15 := by norm_num
  constructor
  · rw [compute_liquidity, sqrt_four, Real.sqrt_one]
    rw [if_pos (by rw [sub_self, abs_zero]; exact h115)]
    rw [if_neg (by norm_num)]
    rw [show ((1 : ℝ) / (2 - 1)) = 1 by norm_num]
    rw [EReal.coe_one]
    exact min_eq_right le_top
  · rw [compute_liquidity, sqrt_four, sqrt_nine, Real.sqrt_one]
    rw [if_neg (by norm_num), if_neg (by norm_num)]
    have hmin : ((1 : ℝ) / (1 - 2)) ≤ (1 * (1 * 3) / (3 - 1) : ℝ) := by norm_num
    rw [min_eq_right (EReal.coe_le_coe_iff.mpr hmin)]
    rw [show ((1 : ℝ) / (1 - 2)) = -1 by norm_num]
    exact EReal.coe_neg'.mpr (by norm_num)

/-- Claim C2 as amended: `compute_liquidity` returns `min(Lx, Ly)`, where
a side whose denominator has absolute value below `1e-15` contributes an
infinite bound (not `0`); a reference price outside `(lower, upper)`
produces only a warning, but then the result may be negative.  When
`x, y ≥ 0`, `0 < lower < P0 < upper`, and the `y`-side denominator
`sqrt(P0) - sqrt(lower)` is at least `1e-15`, the result is finite and
non-negative. -/
theorem compute_liquidity_in_range_nonneg (x y P0 pl pu : ℝ)
    (hx : 0 ≤ x) (hy : 0 ≤ y) (hpl : 0 < pl) (h1 : pl < P0) (h2 : P0 < pu)
    (hdy : 1e-15 ≤ Real.sqrt P0 - Real.sqrt pl) :
    0 ≤ compute_liquidity x y P0 pl pu ∧ compute_liquidity x y P0 pl pu ≠ ⊤ := by
  have h115 : (0 : ℝ) < 1e-15 := by norm_num
  have hP0 : (0 : ℝ) < P0 := lt_trans hpl h1
  have hdy0 : (0 : ℝ) < Real.sqrt P0 - Real.sqrt pl := lt_of_lt_of_le h115 hdy
  have hynot : ¬ |Real.sqrt P0 - Real.sqrt pl| < 1e-15 := by
    rw [abs_of_pos hdy0]; exact not_lt.mpr hdy
  have hLy0 : (0 : ℝ) ≤ y / (Real.sqrt P0 - Real.sqrt pl) := div_nonneg hy hdy0.le
  have hdx0 : (0 : ℝ) < Real.sqrt pu - Real.sqrt P0 := by
    have := Real.sqrt_lt_sqrt hP0.le h2
    linarith
  constructor
  · apply le_min
    · by_cases hc : |Real.sqrt pu - Real.sqrt P0| < 1e-15
      · rw [if_pos hc]; exact le_top
      · rw [if_neg hc, ← EReal.coe_zero, EReal.coe_le_coe_iff]
        have : (0 : ℝ) ≤ Real.sqrt P0 * Real.sqrt pu := by positivity
        positivity
    · rw [if_neg hynot, ← EReal.coe_zero, EReal.coe_le_coe_iff]
      exact hLy0
  · apply ne_top_of_le_ne_top _ (min_le_right _ _)
    rw [if_neg hynot]
    exact EReal.coe_ne_top _

/-- Witness for the amended C2 at `x = y = 1`, `P0 = 4`, range `(1, 9)`. -/
theorem compute_liquidity_in_range_nonneg_witness :
    (0 : ℝ) ≤ 1 ∧ (0 : ℝ) < 1 ∧ (1 : ℝ) < 4 ∧ (4 : ℝ) < 9 ∧
      (1e-15 : ℝ) ≤ Real.sqrt 4 - Real.sqrt 1 ∧
      (0 ≤ compute_liquidity 1 1 4 1 9 ∧ compute_liquidity 1 1 4 1 9 ≠ ⊤) := by
  have hdy : (1e-15 : ℝ) ≤ Real.sqrt 4 - Real.sqrt 1 := by
    rw [sqrt_four, Real.sqrt_one]; norm_num
  exact ⟨by norm_num, by norm_num, by norm_num, by norm_num, hdy,
    compute_liquidity_in_range_nonneg 1 1 4 1 9 (by norm_num) (by norm_num) (by norm_num)
      (by norm_num) (by norm_num) hdy⟩

end ImpermanentLoss
